import Mathlib

/-!
# Verification of the Tuido task/topic core

Shallow embedding of the task model (`src/model/tasks_model.py`), the tasks
controller (`src/controller/tasks_controller.py`), the topics controller
(`src/controller/topics_controller.py`) and the edit-reconciliation handlers
(`src/app.py`), together with theorems settling the specification claims.

Python dictionaries are embedded as association lists that preserve insertion
order (first binding wins on lookup, as keys of a real `dict` are unique);
Python `list.sort` (a stable sort) is embedded as `List.insertionSort`, which
is likewise stable, so both produce the identical output list for the same
(total, transitive) comparison relation.
-/

namespace Tuido

/-- `src/model/tasks_model.py`: `class TaskPriority(enum.Enum)` with
`HIGH = 1`, `MEDIUM = 2`, `LOW = 3`. -/
inductive TaskPriority where
  | HIGH
  | MEDIUM
  | LOW
deriving DecidableEq, Repr

/-- The `.value` of a `TaskPriority` member (1, 2 or 3). -/
def TaskPriority.value : TaskPriority → Nat
  | .HIGH => 1
  | .MEDIUM => 2
  | .LOW => 3

/-- `src/model/tasks_model.py`: `@dataclass(slots=True) class Task`. -/
structure Task where
  column_name : String
  description : String
  priority : TaskPriority
  start_date : String
  end_date : String
  days_to_start : Option Int
  days_to_end : Option Int
deriving DecidableEq, Repr

/-! ## Calendar dates and timestamps

`pylightlib.msc.DateTime` is an external library (not part of this
repository).  Modelled from the spec (§4.1, §4.2): `date_to_timestamp`
parses a `YYYY-MM-DD` string into a timestamp, yielding a falsy value
(`None`) when the string is empty or is not a valid calendar date;
`date_diff` returns the signed whole-day difference between two timestamps;
`today_timestamp` is the injectable "today".  Timestamps are modelled as
rata-die day numbers (days since 0000-12-31 of the proleptic Gregorian
calendar), which are strictly positive for every valid calendar date and
monotone in the date, so day differences are plain subtractions. -/

/-- Gregorian leap-year test. -/
def isLeap (y : Nat) : Bool :=
  (y % 4 == 0 && y % 100 != 0) || y % 400 == 0

/-- Number of days in month `m` (1-based) of year `y`; `0` for an invalid
month number. -/
def daysInMonth (y m : Nat) : Nat :=
  match m with
  | 1 => 31
  | 2 => if isLeap y then 29 else 28
  | 3 => 31
  | 4 => 30
  | 5 => 31
  | 6 => 30
  | 7 => 31
  | 8 => 31
  | 9 => 30
  | 10 => 31
  | 11 => 30
  | 12 => 31
  | _ => 0

/-- Days in year `y` strictly before month `m` (1-based). -/
def daysBeforeMonth (y : Nat) : Nat → Nat
  | 0 => 0
  | 1 => 0
  | Nat.succ m => daysBeforeMonth y m + daysInMonth y m

/-- Rata-die day number of the calendar date `(y, m, d)`: complete years
before `y`, plus complete months of `y` before `m`, plus `d`.  Strictly
positive whenever `1 ≤ d`. -/
def rataDie (y m d : Nat) : Nat :=
  365 * (y - 1) + (y - 1) / 4 - (y - 1) / 100 + (y - 1) / 400
    + daysBeforeMonth y m + d

/-- Split a character list at every dash (`"a-b".split("-")` style: the
empty list yields one empty group). -/
def splitOnDash : List Char → List (List Char)
  | [] => [[]]
  | c :: rest =>
    if c = '-' then [] :: splitOnDash rest
    else
      match splitOnDash rest with
      | [] => [[c]]
      | g :: gs => (c :: g) :: gs

/-- Read a non-empty, all-digit character list as a decimal number. -/
def digitsToNat? (cs : List Char) : Option Nat :=
  if cs ≠ [] ∧ cs.all Char.isDigit then
    some (cs.foldl (fun a c => a * 10 + (c.toNat - 48)) 0)
  else none

/-- A validated `YYYY-MM-DD` calendar date: four digit characters, a dash,
two digits, a dash, two digits, with `1 ≤ year ≤ 9999` (Python's
`datetime` range), a real month and a real day of that month. -/
def parseDate (s : String) : Option (Nat × Nat × Nat) :=
  match splitOnDash s.data with
  | [ys, ms, ds] =>
    match digitsToNat? ys, digitsToNat? ms, digitsToNat? ds with
    | some y, some m, some d =>
      if ys.length = 4 ∧ ms.length = 2 ∧ ds.length = 2
          ∧ 1 ≤ y ∧ y ≤ 9999 ∧ 1 ≤ m ∧ m ≤ 12
          ∧ 1 ≤ d ∧ d ≤ daysInMonth y m then
        some (y, m, d)
      else
        none
    | _, _, _ => none
  | _ => none

/-- Modelled from the spec: `DateTime.date_to_timestamp(s, english_format=True)`
of the external `pylightlib` library — the timestamp of a parseable
`YYYY-MM-DD` date, `None` otherwise. -/
def date_to_timestamp (s : String) : Option Nat :=
  (parseDate s).map fun (y, m, d) => rataDie y m d

/-- Modelled from the spec: `DateTime.date_diff(a, b)` — signed whole-day
difference `a - b` between two (day-number) timestamps. -/
def date_diff (a b : Nat) : Int :=
  (a : Int) - (b : Int)

/-- `src/model/tasks_model.py`: `Tasks.days_to`.  The wall-clock "today"
timestamp (`DateTime.today_timestamp()`) is passed explicitly.  The source
tests the timestamp for Python truthiness (`if timestamp:`), so both a
missing timestamp and a zero timestamp yield `None`. -/
def days_to (today : Nat) (date_str : String) : Option Int :=
  match date_to_timestamp date_str with
  | some timestamp =>
    if timestamp ≠ 0 then some (date_diff timestamp today) else none
  | none => none

/-! ## The §4.2 total order on tasks -/

/-- `MAX_DATE = datetime(3000, 1, 1).timestamp()` from `Tasks.sort_tasks`,
as a rata-die day number. -/
def MAX_DATE : Nat := rataDie 3000 1 1

/-- The timestamp of a task date used as a sort key:
`DateTime.date_to_timestamp(s, english_format=True) or MAX_DATE` — the
far-future sentinel replaces a falsy (missing or zero) timestamp. -/
def tsOrMax (s : String) : Nat :=
  match date_to_timestamp s with
  | some ts => if ts ≠ 0 then ts else MAX_DATE
  | none => MAX_DATE

/-- Non-strict lexicographic combination: compare by the projection `f`
first, fall through to `r` on ties.  `lexLE f r` is the order of a Python
key tuple whose head component is `f` and whose tail is ordered by `r`. -/
def lexLE {γ : Type} {α : Type} [LinearOrder α] (f : γ → α)
    (r : γ → γ → Prop) (x y : γ) : Prop :=
  f x < f y ∨ (f x = f y ∧ r x y)

theorem lexLE_trans {γ α : Type} [LinearOrder α] (f : γ → α)
    (r : γ → γ → Prop) (hr : ∀ a b c, r a b → r b c → r a c) :
    ∀ a b c, lexLE f r a b → lexLE f r b c → lexLE f r a c := by
  intro a b c hab hbc
  rcases hab with h1 | ⟨h1, h1'⟩ <;> rcases hbc with h2 | ⟨h2, h2'⟩
  · exact Or.inl (lt_trans h1 h2)
  · exact Or.inl (lt_of_lt_of_eq h1 h2)
  · exact Or.inl (lt_of_eq_of_lt h1 h2)
  · exact Or.inr ⟨h1.trans h2, hr _ _ _ h1' h2'⟩

theorem lexLE_total {γ α : Type} [LinearOrder α] (f : γ → α)
    (r : γ → γ → Prop) (hr : ∀ a b, r a b ∨ r b a) :
    ∀ a b, lexLE f r a b ∨ lexLE f r b a := by
  intro a b
  rcases lt_trichotomy (f a) (f b) with h | h | h
  · exact Or.inl (Or.inl h)
  · rcases hr a b with h' | h'
    · exact Or.inl (Or.inr ⟨h, h'⟩)
    · exact Or.inr (Or.inr ⟨h.symm, h'⟩)
  · exact Or.inr (Or.inl h)

instance lexLE.instDecidable {γ α : Type} [LinearOrder α] (f : γ → α)
    (r : γ → γ → Prop) [DecidableRel r] : DecidableRel (lexLE f r) :=
  fun x y => inferInstanceAs (Decidable (_ ∨ _ ∧ _))

/-- Code point of `c.lower()` for the ASCII range Python's `str.lower`
maps letters through (identity outside `A`–`Z`). -/
def charLowerNat (c : Char) : Nat :=
  if 65 ≤ c.toNat ∧ c.toNat ≤ 90 then c.toNat + 32 else c.toNat

/-- Python string `<=`: lexicographic comparison of code-point
sequences. -/
def listNatLE : List Nat → List Nat → Prop
  | [], _ => True
  | _ :: _, [] => False
  | a :: as, b :: bs => a < b ∨ (a = b ∧ listNatLE as bs)

instance listNatLE.instDecidable : DecidableRel listNatLE := fun x y =>
  match x, y with
  | [], _ => isTrue trivial
  | _ :: _, [] => isFalse id
  | a :: as, b :: bs =>
    haveI := listNatLE.instDecidable as bs
    inferInstanceAs (Decidable (a < b ∨ (a = b ∧ listNatLE as bs)))

theorem listNatLE_trans :
    ∀ x y z, listNatLE x y → listNatLE y z → listNatLE x z := by
  intro x
  induction x with
  | nil => intro y z _ _; trivial
  | cons a as ih =>
    intro y z h1 h2
    cases y with
    | nil => exact absurd h1 id
    | cons b bs =>
      cases z with
      | nil => exact absurd h2 id
      | cons c cs =>
        rcases h1 with h1 | ⟨rfl, h1'⟩ <;> rcases h2 with h2 | ⟨rfl, h2'⟩
        · exact Or.inl (lt_trans h1 h2)
        · exact Or.inl h1
        · exact Or.inl h2
        · exact Or.inr ⟨rfl, ih bs cs h1' h2'⟩

theorem listNatLE_total : ∀ x y, listNatLE x y ∨ listNatLE y x := by
  intro x
  induction x with
  | nil => intro y; exact Or.inl trivial
  | cons a as ih =>
    intro y
    cases y with
    | nil => exact Or.inr trivial
    | cons b bs =>
      rcases Nat.lt_trichotomy a b with h | rfl | h
      · exact Or.inl (Or.inl h)
      · rcases ih bs with h' | h'
        · exact Or.inl (Or.inr ⟨rfl, h'⟩)
        · exact Or.inr (Or.inr ⟨rfl, h'⟩)
      · exact Or.inr (Or.inl h)

/-- The code-point sequence of `s.lower()`. -/
def lowerKey (s : String) : List Nat :=
  s.data.map charLowerNat

/-- Final tie-break of the sort key: `task.description.lower()` ascending. -/
def descLE (a b : Task) : Prop :=
  listNatLE (lowerKey a.description) (lowerKey b.description)

instance : DecidableRel descLE :=
  fun a b => inferInstanceAs (Decidable (listNatLE _ _))

/-- The §4.2 total order on tasks — the order of the Python key tuple
`(priority.value, start timestamp or MAX_DATE, end timestamp or MAX_DATE,
description.lower())` from `Tasks.sort_tasks`. -/
def taskLE : Task → Task → Prop :=
  lexLE (fun t => t.priority.value)
    (lexLE (fun t => tsOrMax t.start_date)
      (lexLE (fun t => tsOrMax t.end_date) descLE))

instance taskLE.instDecidable : DecidableRel taskLE :=
  fun a b =>
    inferInstanceAs (Decidable (lexLE _ (lexLE _ (lexLE _ descLE)) a b))

instance : IsTrans Task taskLE :=
  ⟨lexLE_trans _ _ (lexLE_trans _ _ (lexLE_trans _ _
    (fun _ _ _ h h' => listNatLE_trans _ _ _ h h')))⟩

instance : IsTotal Task taskLE :=
  ⟨lexLE_total _ _ (lexLE_total _ _ (lexLE_total _ _
    (fun _ _ => listNatLE_total _ _)))⟩

/-- The key used by `Tasks.add_task_to_dict_from_raw_data`'s own sort:
`key=lambda task: task.priority.value` — priority alone. -/
def prioLE (a b : Task) : Prop :=
  a.priority.value ≤ b.priority.value

instance : DecidableRel prioLE :=
  fun a b => inferInstanceAs (Decidable (_ ≤ _))

instance : IsTrans Task prioLE := ⟨fun _ _ _ h h' => le_trans h h'⟩

instance : IsTotal Task prioLE := ⟨fun _ _ => le_total _ _⟩

end Tuido

namespace Tuido

/-! ## Association-list embedding of Python dictionaries -/

/-- Python `d[k]` / `k in d`: value of the first binding of `k`, if any. -/
def alookup {α : Type} : List (String × α) → String → Option α
  | [], _ => none
  | (c, v) :: rest, name => if c = name then some v else alookup rest name

/-- In-place update `d[k] = f(d[k])` of the first binding of `k`
(keys of a real `dict` are unique, so at most one binding exists). -/
def aupdate {α : Type} : List (String × α) → String → (α → α) →
    List (String × α)
  | [], _, _ => []
  | (c, v) :: rest, name, f =>
    if c = name then (c, f v) :: rest else (c, v) :: aupdate rest name f

/-- `Tasks.tasks`: the mapping from column name to task list, in dictionary
insertion order. -/
abbrev Board : Type := List (String × List Task)

/-- The task list of a column (`[]` when the column is absent). -/
def colOf (b : Board) (c : String) : List Task :=
  (alookup b c).getD []

/-- Total number of tasks on the board, summed over all columns. -/
def totalCount : Board → Nat
  | [] => 0
  | p :: rest => p.2.length + totalCount rest

/-! ## Task store operations (`src/model/tasks_model.py`) -/

/-- `Tasks.sort_tasks`: re-sort every column in place by the §4.2 key
tuple (`list.sort` is stable; embedded as the stable `insertionSort`). -/
def sort_tasks (b : Board) : Board :=
  b.map fun p => (p.1, p.2.insertionSort taskLE)

/-- The raw per-task record shape handled by
`Tasks.create_task_object_from_raw_data` (`description`, `priority` already
converted to an integer, `start_date`, `end_date`). -/
structure RawTask where
  description : String
  priority : Int
  start_date : String
  end_date : String
deriving DecidableEq, Repr

/-- `Tasks.num_to_priority`: `1 → HIGH`, `2 → MEDIUM`, anything else `→ LOW`. -/
def num_to_priority (priority_number : Int) : TaskPriority :=
  if priority_number = 1 then .HIGH
  else if priority_number = 2 then .MEDIUM
  else .LOW

/-- `Tasks.create_task_object_from_raw_data` (with the wall-clock "today"
passed explicitly, as in §4.1). -/
def create_task_object_from_raw_data (today : Nat) (column_name : String)
    (task_dict : RawTask) : Task :=
  { column_name := column_name
    description := task_dict.description
    priority := num_to_priority task_dict.priority
    start_date := task_dict.start_date
    end_date := task_dict.end_date
    days_to_start := days_to today task_dict.start_date
    days_to_end := days_to today task_dict.end_date }

/-- `Tasks.add_task_to_dict_from_raw_data`: append the new task to
`self.tasks[column_name]` and re-sort that column by
`key=lambda task: task.priority.value` (priority value only).  The
subscript raises `KeyError` (modelled as `none`) when `column_name` is not
a key of the tasks dictionary. -/
def add_task_to_dict_from_raw_data (today : Nat) (b : Board)
    (column_name : String) (task_dict : RawTask) : Option Board :=
  match alookup b column_name with
  | none => none
  | some _ =>
    let task := create_task_object_from_raw_data today column_name task_dict
    some (aupdate b column_name fun l => (l ++ [task]).insertionSort prioLE)

/-- `Tasks.delete_task`: delete the task at `task_index` of `column_name`
when the column exists and `0 <= task_index < len(...)`; otherwise leave
the board unchanged. -/
def delete_task (b : Board) (column_name : String) (task_index : Int) :
    Board :=
  match alookup b column_name with
  | none => b
  | some l =>
    if 0 ≤ task_index ∧ task_index.toNat < l.length then
      aupdate b column_name fun l => l.eraseIdx task_index.toNat
    else
      b

/-- The cleaned per-task record written by `Tasks.get_cleaned_tasks_dict`:
exactly `description`, `priority` (as its integer `.value`), `start_date`
and `end_date` — no derived field. -/
structure CleanedTask where
  description : String
  priority : Nat
  start_date : String
  end_date : String
deriving DecidableEq, Repr

/-- `Tasks.get_cleaned_tasks_dict`. -/
def get_cleaned_tasks_dict (b : Board) :
    List (String × List CleanedTask) :=
  b.map fun p =>
    (p.1, p.2.map fun task =>
      { description := task.description
        priority := task.priority.value
        start_date := task.start_date
        end_date := task.end_date })

/-- `Tasks.save_to_file`: re-sort every column (`self.sort_tasks()`), then
serialize the cleaned dictionary.  Returns the in-memory board after the
call together with the persisted representation. -/
def save_to_file (b : Board) :
    Board × List (String × List CleanedTask) :=
  let sorted := sort_tasks b
  (sorted, get_cleaned_tasks_dict sorted)

end Tuido

namespace Tuido

/-! ## Moving tasks (`src/controller/tasks_controller.py`) -/

/-- `class TaskMoveDirection(enum.Enum)`. -/
inductive TaskMoveDirection where
  | LEFT
  | RIGHT
deriving DecidableEq, Repr

/-- `TasksController.move_task`.  `column_names` is the configured column
order (`config.task_column_names`), `selected_column` / `selected_task_index`
are the UI selection.  `none` models an uncaught Python exception
(`ValueError` from `list.index`, `KeyError` from the dictionary subscript,
or `IndexError` from the list subscript); `some` is the resulting in-memory
board after `sort_tasks` and `save_to_file` have run. -/
def move_task (column_names : List String) (b : Board)
    (selected_column : String) (selected_task_index : Nat)
    (move_direction : TaskMoveDirection) : Option Board :=
  if selected_column ∈ column_names then
    let source_column_index := column_names.indexOf selected_column
    let target_column_index :=
      match move_direction with
      | .LEFT => source_column_index - 1
      | .RIGHT => min (source_column_index + 1) (column_names.length - 1)
    let target_column_name := column_names.getD target_column_index ""
    if source_column_index = target_column_index then some b
    else
      match alookup b selected_column with
      | none => none
      | some src =>
        if src.length = 0 then some b
        else
          match src[selected_task_index]? with
          | none => none
          | some task_to_move =>
            let b1 := delete_task b selected_column
              (selected_task_index : Int)
            let moved := { task_to_move with
              column_name := target_column_name }
            let b2 :=
              if (alookup b1 target_column_name).isSome then b1
              else b1 ++ [(target_column_name, ([] : List Task))]
            let b3 := aupdate b2 target_column_name fun l => l ++ [moved]
            some (save_to_file (sort_tasks b3)).1
  else none

/-! ## JSON documents

Modelled from Python's standard `json` module (external to this
repository): a recursive-descent parser for JSON values.  `json.load`
raises `JSONDecodeError` when the document contains no JSON value — in
particular on an empty document — modelled as `none`.  Escape sequences
are handled character-wise and numbers as integers, which covers every
document this store itself reads or writes. -/

inductive JValue where
  | null
  | bool (b : Bool)
  | num (n : Int)
  | str (s : String)
  | arr (elems : List JValue)
  | obj (fields : List (String × JValue))
deriving Repr

/-- JSON whitespace. -/
def isJsonWs (c : Char) : Bool :=
  c = ' ' || c = '\t' || c = '\n' || c = '\r'

/-- Drop leading JSON whitespace. -/
def skipWs : List Char → List Char
  | [] => []
  | c :: rest => if isJsonWs c then skipWs rest else c :: rest

/-- Translate the character after a backslash in a string literal. -/
def unescape (c : Char) : Char :=
  if c = 'n' then '\n'
  else if c = 't' then '\t'
  else if c = 'r' then '\r'
  else c

/-- Parse the remainder of a string literal after its opening quote. -/
def parseStringBody : List Char → Option (String × List Char)
  | [] => none
  | '"' :: rest => some ("", rest)
  | '\\' :: c :: rest =>
    (parseStringBody rest).map fun (s, r) =>
      (String.mk (unescape c :: s.data), r)
  | c :: rest =>
    (parseStringBody rest).map fun (s, r) => (String.mk (c :: s.data), r)

/-- Parse a run of decimal digits into a number. -/
def parseDigits (acc : Nat) : List Char → Option (Nat × List Char)
  | [] => some (acc, [])
  | c :: rest =>
    if c.isDigit then
      match parseDigits (acc * 10 + (c.toNat - '0'.toNat)) rest with
      | some (n, r) => some (n, r)
      | none => none
    else
      some (acc, c :: rest)

/-- Parse an integer JSON number (optional leading minus). -/
def parseNum : List Char → Option (JValue × List Char)
  | '-' :: c :: rest =>
    if c.isDigit then
      (parseDigits 0 (c :: rest)).map fun (n, r) => (.num (-(n : Int)), r)
    else none
  | c :: rest =>
    if c.isDigit then
      (parseDigits 0 (c :: rest)).map fun (n, r) => (.num (n : Int), r)
    else none
  | [] => none

mutual

/-- Parse one JSON value (fuel-bounded recursive descent). -/
def parseValue : Nat → List Char → Option (JValue × List Char)
  | 0, _ => none
  | Nat.succ fuel, cs =>
    match skipWs cs with
    | '{' :: rest =>
      (match skipWs rest with
       | '}' :: rest2 => some (.obj [], rest2)
       | rest2 => (parseMembers fuel rest2).map fun (fs, r) => (.obj fs, r))
    | '[' :: rest =>
      (match skipWs rest with
       | ']' :: rest2 => some (.arr [], rest2)
       | rest2 => (parseElems fuel rest2).map fun (es, r) => (.arr es, r))
    | '"' :: rest => (parseStringBody rest).map fun (s, r) => (.str s, r)
    | 't' :: 'r' :: 'u' :: 'e' :: rest => some (.bool true, rest)
    | 'f' :: 'a' :: 'l' :: 's' :: 'e' :: rest => some (.bool false, rest)
    | 'n' :: 'u' :: 'l' :: 'l' :: rest => some (.null, rest)
    | cs' => parseNum cs'

/-- Parse the members of a non-empty JSON object, including the closing
brace. -/
def parseMembers : Nat → List Char →
    Option (List (String × JValue) × List Char)
  | 0, _ => none
  | Nat.succ fuel, cs =>
    match skipWs cs with
    | '"' :: rest =>
      (match parseStringBody rest with
       | none => none
       | some (key, r1) =>
         match skipWs r1 with
         | ':' :: r2 =>
           (match parseValue fuel r2 with
            | none => none
            | some (v, r3) =>
              match skipWs r3 with
              | ',' :: r4 =>
                (parseMembers fuel r4).map fun (fs, r) => ((key, v) :: fs, r)
              | '}' :: r4 => some ([(key, v)], r4)
              | _ => none)
         | _ => none)
    | _ => none

/-- Parse the elements of a non-empty JSON array, including the closing
bracket. -/
def parseElems : Nat → List Char → Option (List JValue × List Char)
  | 0, _ => none
  | Nat.succ fuel, cs =>
    match parseValue fuel cs with
    | none => none
    | some (v, r1) =>
      match skipWs r1 with
      | ',' :: r2 => (parseElems fuel r2).map fun (es, r) => (v :: es, r)
      | ']' :: r2 => some ([v], r2)
      | _ => none

end

/-- `json.load`: parse a whole document; fails (raises) when no JSON value
is present or trailing garbage follows. -/
def json_load (s : String) : Option JValue :=
  match parseValue (s.length + 1) s.data with
  | some (v, rest) => if skipWs rest = [] then some v else none
  | none => none

end Tuido

namespace Tuido

/-! ## Loading tasks (`Tasks.load_from_file` / `Tasks.generate_tasks_dict`) -/

/-- `int(task_dict['priority'])`: a JSON integer, or a string of digits. -/
def decodePriorityInt : JValue → Option Int
  | .num n => some n
  | .str s => s.toInt?
  | _ => none

/-- Read one raw task record out of a decoded JSON object
(`task_dict['description']` etc.; a missing key raises `KeyError`,
modelled as `none`). -/
def decodeRawTask : JValue → Option RawTask
  | .obj fields =>
    match alookup fields "description", alookup fields "priority",
        alookup fields "start_date", alookup fields "end_date" with
    | some (.str d), some pv, some (.str sd), some (.str ed) =>
      (decodePriorityInt pv).map fun p =>
        { description := d, priority := p, start_date := sd, end_date := ed }
    | _, _, _, _ => none
  | _ => none

/-- The per-column loop of `Tasks.generate_tasks_dict`: each JSON column is
an array of task records, each turned into a `Task` by
`create_task_object_from_raw_data`. -/
def decodeColumns (today : Nat) : JValue → Option Board
  | .obj cols =>
    cols.mapM fun p =>
      match p.2 with
      | .arr items =>
        (items.mapM decodeRawTask).map fun raws =>
          (p.1, raws.map (create_task_object_from_raw_data today p.1))
      | _ => none
  | _ => none

/-- `Tasks.generate_tasks_dict` (on a fresh instance): build the column
dictionary from the decoded raw data, then `sort_tasks`. -/
def generate_tasks_dict (today : Nat) (v : JValue) : Option Board :=
  (decodeColumns today v).map sort_tasks

/-- Result of `Tasks.load_from_file`: the content of the file at
`json_path` after the call, and either the loaded board or the uncaught
exception the call raises. -/
structure LoadOutcome where
  file_content : Option String
  result : Except String Board
deriving Repr

/-- `Tasks.load_from_file`.  `file_content` is the content of the file at
`self.json_path` before the call (`none` = the file does not exist).  If
the file does not exist it is created with the empty content `''`; the file
is then read and fed to `json.load`, whose failure (`JSONDecodeError`)
propagates, as does a `KeyError`/`TypeError` from
`generate_tasks_dict`. -/
def load_from_file (today : Nat) (file_content : Option String) :
    LoadOutcome :=
  let content := match file_content with
    | none => ""
    | some s => s
  match json_load content with
  | none => ⟨some content, .error "json.decoder.JSONDecodeError"⟩
  | some v =>
    match generate_tasks_dict today v with
    | some board => ⟨some content, .ok board⟩
    | none => ⟨some content, .error "KeyError"⟩

/-! ## The topic store (`src/controller/topics_controller.py`) -/

/-- One topic record: its integer `id` plus its named field values. -/
structure TopicRec where
  id : Nat
  fields : List (String × String)
deriving DecidableEq, Repr

/-- `TopicsController.create_new_topic`: the new id is
`max([topic['id'] for topic in data], default=0) + 1`; the new record maps
every configured column to `''`.  Modelled from the spec: `model/topics.py`
is absent from `src/`; §4.4 — `create` "appends the new record to both the
lookup and the sequence".  Returns the new id and the updated sequence. -/
def create_new_topic (cols : List String) (data : List TopicRec) :
    Nat × List TopicRec :=
  let new_id := ((data.map fun r => r.id).foldr max 0) + 1
  (new_id, data ++ [{ id := new_id, fields := cols.map fun c => (c, "") }])

/-- `TopicsController.delete_topic`.  Modelled from the spec:
`model/topics.py` is absent from `src/`; §4.4 — `delete` "removes the
record from both lookup and sequence". -/
def delete_topic (data : List TopicRec) (topic_id : Nat) : List TopicRec :=
  data.filter fun r => r.id ≠ topic_id

/-- One create or delete call against the topic collection. -/
inductive TopicOp where
  | create (cols : List String)
  | delete (topic_id : Nat)

/-- Run a sequence of create/delete calls, starting from `data`. -/
def runTopicOps (data : List TopicRec) : List TopicOp → List TopicRec
  | [] => data
  | .create cols :: rest => runTopicOps (create_new_topic cols data).2 rest
  | .delete tid :: rest => runTopicOps (delete_topic data tid) rest

/-! ## Edit reconciliation (`src/app.py`) -/

/-- The tracker state carried by `TopicsController` and the topics table:
the suppress-set `programmatically_changed_inputs`, the dirty-set
`user_changed_inputs`, and the `disabled` flag of the topics table. -/
structure TrackerState where
  programmatically_changed_inputs : Finset String
  user_changed_inputs : Finset String
  table_disabled : Bool
deriving DecidableEq

/-- The value carried by a change event: a string, or `none` for the
`Select.BLANK` blank-selection sentinel. -/
abbrev EventValue := Option String

/-- If `pat` is an initial segment of `s`, the remainder of `s` after it. -/
def stripAt : List Char → List Char → Option (List Char)
  | [], s => some s
  | _ :: _, [] => none
  | p :: ps, c :: cs => if p = c then stripAt ps cs else none

/-- Replace every non-overlapping occurrence of `pat`, left to right
(`str.replace` for a non-empty pattern); the fuel is the input length,
which suffices because each step consumes at least one character. -/
def replaceFuel (pat rep : List Char) : Nat → List Char → List Char
  | _, [] => []
  | 0, s => s
  | Nat.succ fuel, c :: rest =>
    match stripAt pat (c :: rest) with
    | some rem =>
      if pat.isEmpty then c :: replaceFuel pat rep fuel rest
      else rep ++ replaceFuel pat rep fuel rem
    | none => c :: replaceFuel pat rep fuel rest

/-- Python `s.replace(pat, rep)` for a non-empty pattern. -/
def strReplace (s pat rep : String) : String :=
  String.mk (replaceFuel pat.data rep.data s.data.length s.data)

/-- Python `s.startswith(pre)`. -/
def strStarts (s pre : String) : Bool :=
  (stripAt pre.data s.data).isSome

/-- Lookup of `topics_by_id[topic_id]` in the topic store. -/
def lookupTopic (store : List TopicRec) (topic_id : Nat) :
    Option (List (String × String)) :=
  match store.find? fun r => r.id = topic_id with
  | some r => some r.fields
  | none => none

/-- `TuidoApp.activate_deactivate_topics_table`: the table is disabled
exactly when `len(user_changed_inputs) > 0`. -/
def activate_deactivate_topics_table (st : TrackerState) : TrackerState :=
  { st with table_disabled := st.user_changed_inputs.card > 0 }

/-- `TuidoApp.compare_input_value_to_original`: events from widgets whose
id does not start with `topics_` are ignored; `Select.BLANK` is read as
`''`; the stored value of the field (missing field = `''`) for the
currently selected topic is compared to the new value, the dirty-set is
updated, and the table state is refreshed.  `none` models the uncaught
`KeyError` when `topic_id` has no record. -/
def compare_input_value_to_original (store : List TopicRec)
    (topic_id : Nat) (st : TrackerState) (input_id : String)
    (v : EventValue) : Option TrackerState :=
  if ¬ strStarts input_id "topics_" then some st
  else
    let current_value := match v with
      | none => ""
      | some s => s
    match lookupTopic store topic_id with
    | none => none
    | some fields =>
      let field_name :=
        strReplace (strReplace input_id "topics_" "") "_input" ""
      let original_value := (alookup fields field_name).getD ""
      let user' :=
        if current_value = original_value then
          st.user_changed_inputs.erase input_id
        else
          insert input_id st.user_changed_inputs
      some (activate_deactivate_topics_table { st with
        user_changed_inputs := user' })

/-- `TuidoApp.on_input_changed` (the handlers for `TextArea.Changed` and
`Select.Changed` have the identical structure): an event whose widget id is
in the suppress-set removes that id from the suppress-set and does nothing
else; any other event is passed to `compare_input_value_to_original`. -/
def on_input_changed (store : List TopicRec) (topic_id : Nat)
    (st : TrackerState) (input_id : String) (v : EventValue) :
    Option TrackerState :=
  if input_id ∈ st.programmatically_changed_inputs then
    some { st with programmatically_changed_inputs :=
      st.programmatically_changed_inputs.erase input_id }
  else
    compare_input_value_to_original store topic_id st input_id v

end Tuido

namespace Tuido

/-! ## Helper lemmas about the association-list dictionary -/

theorem alookup_aupdate_self {α : Type} (b : List (String × α)) (c : String)
    (f : α → α) : alookup (aupdate b c f) c = (alookup b c).map f := by
  induction b with
  | nil => rfl
  | cons p rest ih =>
    obtain ⟨c0, v⟩ := p
    by_cases h : c0 = c <;> simp [aupdate, alookup, h, ih]

theorem alookup_aupdate_ne {α : Type} (b : List (String × α)) (c c' : String)
    (f : α → α) (h : c' ≠ c) :
    alookup (aupdate b c f) c' = alookup b c' := by
  induction b with
  | nil => rfl
  | cons p rest ih =>
    obtain ⟨c0, v⟩ := p
    by_cases h0 : c0 = c
    · subst h0
      have hne : ¬ c0 = c' := fun hx => h hx.symm
      simp [aupdate, alookup, hne]
    · by_cases h1 : c0 = c' <;> simp [aupdate, alookup, h0, h1, ih, h]

theorem alookup_map_snd {α β : Type} (b : List (String × α)) (g : α → β)
    (c : String) :
    alookup (b.map fun p => (p.1, g p.2)) c = (alookup b c).map g := by
  induction b with
  | nil => rfl
  | cons p rest ih =>
    obtain ⟨c0, v⟩ := p
    by_cases h : c0 = c <;> simp [alookup, h, ih]

theorem alookup_append_left {α : Type} (b b' : List (String × α))
    (c : String) (l : α) (h : alookup b c = some l) :
    alookup (b ++ b') c = some l := by
  induction b with
  | nil => simp [alookup] at h
  | cons p rest ih =>
    obtain ⟨c0, v⟩ := p
    by_cases h0 : c0 = c <;> simp_all [alookup]

theorem alookup_append_none {α : Type} (b b' : List (String × α))
    (c : String) (h : alookup b c = none) :
    alookup (b ++ b') c = alookup b' c := by
  induction b with
  | nil => rfl
  | cons p rest ih =>
    obtain ⟨c0, v⟩ := p
    by_cases h0 : c0 = c <;> simp_all [alookup]

theorem totalCount_append (b b' : Board) :
    totalCount (b ++ b') = totalCount b + totalCount b' := by
  induction b with
  | nil => simp [totalCount]
  | cons p rest ih => simp [totalCount, ih]; omega

theorem totalCount_aupdate (b : Board) (c : String)
    (f : List Task → List Task) (l : List Task) (h : alookup b c = some l) :
    totalCount (aupdate b c f) + l.length = totalCount b + (f l).length := by
  induction b with
  | nil => simp [alookup] at h
  | cons p rest ih =>
    obtain ⟨c0, v⟩ := p
    by_cases h0 : c0 = c
    · simp only [alookup, if_pos h0] at h
      obtain rfl : v = l := by injection h
      simp [aupdate, totalCount, h0]
      omega
    · simp only [alookup, if_neg h0] at h
      have := ih h
      simp [aupdate, totalCount, h0]
      omega

theorem totalCount_sort_tasks (b : Board) :
    totalCount (sort_tasks b) = totalCount b := by
  induction b with
  | nil => rfl
  | cons p rest ih =>
    unfold sort_tasks at ih ⊢
    simp [totalCount, ih]

theorem colOf_sort_tasks (b : Board) (c : String) :
    colOf (sort_tasks b) c = (colOf b c).insertionSort taskLE := by
  unfold colOf sort_tasks
  rw [alookup_map_snd]
  cases alookup b c <;> simp [List.insertionSort]

theorem sorted_colOf_sort_tasks (b : Board) (c : String) :
    (colOf (sort_tasks b) c).Sorted taskLE := by
  rw [colOf_sort_tasks]
  exact List.sorted_insertionSort taskLE _

/-! ## Helper lemmas about dates and topic ids -/

theorem parseDate_day_pos {s : String} {y m d : Nat}
    (h : parseDate s = some (y, m, d)) : 1 ≤ d := by
  unfold parseDate at h
  repeat split at h
  all_goals simp_all

theorem rataDie_pos {y m d : Nat} (hd : 1 ≤ d) : 1 ≤ rataDie y m d :=
  le_trans hd (Nat.le_add_left d _)

theorem le_foldr_max (l : List Nat) : ∀ x ∈ l, x ≤ l.foldr max 0 := by
  induction l with
  | nil => simp
  | cons a as ih =>
    intro x hx
    simp only [List.foldr_cons]
    rcases List.mem_cons.mp hx with rfl | hx
    · exact le_max_left _ _
    · exact le_trans (ih x hx) (le_max_right _ _)

theorem create_id_fresh (cols : List String) (data : List TopicRec) :
    (create_new_topic cols data).1 ∉ data.map fun r => r.id := by
  intro hmem
  have h := le_foldr_max (data.map fun r => r.id) _ hmem
  simp only [create_new_topic] at h
  omega

theorem runTopicOps_nodup (ops : List TopicOp) :
    ∀ data : List TopicRec, ((data.map fun r => r.id).Nodup) →
      ((runTopicOps data ops).map fun r => r.id).Nodup := by
  induction ops with
  | nil => intro data h; simpa [runTopicOps]
  | cons op rest ih =>
    intro data h
    cases op with
    | create cols =>
      apply ih
      have hfresh := create_id_fresh cols data
      simp only [runTopicOps, create_new_topic] at *
      rw [List.map_append, List.nodup_append]
      refine ⟨h, List.nodup_singleton _, ?_⟩
      intro x hx hx'
      simp only [List.map_cons, List.map_nil, List.mem_singleton] at hx'
      subst hx'
      exact hfresh hx
    | delete tid =>
      apply ih
      exact h.sublist ((List.filter_sublist data).map fun r => r.id)

end Tuido

namespace Tuido

/-- Re-sorting an already sorted board changes nothing. -/
theorem sort_tasks_idem (b : Board) : sort_tasks (sort_tasks b) = sort_tasks b := by
  unfold sort_tasks
  rw [List.map_map]
  apply List.map_congr_left
  intro p _
  simp only [Function.comp]
  rw [(List.sorted_insertionSort taskLE p.2).insertionSort_eq]

/-- Concrete sample tasks for witnesses and counterexamples. -/
def sampleA : Task :=
  ⟨"inbox", "a", .HIGH, "", "", none, none⟩

/-- A second sample task, equal to `sampleA` except for the description. -/
def sampleB : Task :=
  ⟨"inbox", "b", .HIGH, "", "", none, none⟩

/-- A third sample task with a lower priority, homed in another column. -/
def sampleC : Task :=
  ⟨"doing", "c", .MEDIUM, "", "", none, none⟩

/-- C1 (counterexample): inserting the task `a` (priority HIGH, no dates)
into a column already holding the task `b` (priority HIGH, no dates) leaves
the column as `[b, a]`, which is *not* sorted by the §4.2 key tuple — the
single-column insert orders by priority value alone. -/
theorem C1_counterexample :
    add_task_to_dict_from_raw_data 0 [("inbox", [sampleB])] "inbox"
        ⟨"a", 1, "", ""⟩
      = some [("inbox", [sampleB, sampleA])]
    ∧ ¬ List.Sorted taskLE [sampleB, sampleA] := by
  exact ⟨by decide, by decide⟩

/-- C1 (amended): after a single-column insert, that column equals the
stable priority-value-only re-sort of the previous list with the new task
appended: it is sorted by `priority.value` ascending and is a permutation
of the old list plus the new task, but not in general sorted by the full
§4.2 key tuple. -/
theorem C1_insert_sorted_by_priority_only (today : Nat) (b : Board)
    (c : String) (raw : RawTask) (l : List Task)
    (h : alookup b c = some l) :
    add_task_to_dict_from_raw_data today b c raw
      = some (aupdate b c fun l0 => List.insertionSort prioLE
          (l0 ++ [create_task_object_from_raw_data today c raw]))
    ∧ colOf (aupdate b c fun l0 => List.insertionSort prioLE
          (l0 ++ [create_task_object_from_raw_data today c raw])) c
        = List.insertionSort prioLE
            (l ++ [create_task_object_from_raw_data today c raw])
    ∧ (List.insertionSort prioLE
        (l ++ [create_task_object_from_raw_data today c raw])).Sorted prioLE
    ∧ List.Perm
        (List.insertionSort prioLE
          (l ++ [create_task_object_from_raw_data today c raw]))
        (l ++ [create_task_object_from_raw_data today c raw]) := by
  refine ⟨?_, ?_, ?_, ?_⟩
  · simp [add_task_to_dict_from_raw_data, h]
  · unfold colOf
    rw [alookup_aupdate_self, h]
    rfl
  · exact List.sorted_insertionSort prioLE _
  · exact List.perm_insertionSort prioLE _

/-- C1 (witness): the amended statement evaluated on a one-task column. -/
theorem C1_insert_witness :
    colOf (aupdate [("inbox", [sampleB])] "inbox" fun l0 =>
        List.insertionSort prioLE (l0 ++
          [create_task_object_from_raw_data 0 "inbox" ⟨"a", 1, "", ""⟩]))
        "inbox"
      = List.insertionSort prioLE ([sampleB] ++
          [create_task_object_from_raw_data 0 "inbox" ⟨"a", 1, "", ""⟩]) :=
  (C1_insert_sorted_by_priority_only 0 [("inbox", [sampleB])] "inbox"
    ⟨"a", 1, "", ""⟩ [sampleB] rfl).2.1

/-- C2: on a missing tasks file, `load_from_file` creates the file with the
empty content `''` and then crashes — `json.load` of an empty document
raises `JSONDecodeError` — instead of yielding an empty board. -/
theorem C2_load_missing_file_crashes (today : Nat) :
    load_from_file today none
      = ⟨some "", Except.error "json.decoder.JSONDecodeError"⟩
    ∧ json_load "" = none
    ∧ (load_from_file today (some "{}")).result = Except.ok [] :=
  ⟨rfl, rfl, rfl⟩

/-- C3 (counterexample): adding a task to the column `rogue`, which is not
among the configured columns `inbox, doing, done` but happens to be a key
of the in-memory mapping, succeeds; adding to a name absent from the
mapping raises `KeyError` (`none`), not a `ValidationError`. -/
theorem C3_counterexample :
    ("rogue" ∉ ["inbox", "doing", "done"])
    ∧ (add_task_to_dict_from_raw_data 0 [("rogue", [])] "rogue"
        ⟨"x", 1, "", ""⟩).isSome = true
    ∧ add_task_to_dict_from_raw_data 0 [("inbox", [])] "bogus"
        ⟨"x", 1, "", ""⟩ = none := by
  exact ⟨by decide, rfl, rfl⟩

/-- C3 (amended): `add_task_to_dict_from_raw_data` raises `KeyError`
(modelled `none`) exactly when the column name is not a key of the current
in-memory tasks mapping, and succeeds when it is; the configured column
identities play no role in the check. -/
theorem C3_add_task_keyerror (today : Nat) (b : Board) (c : String)
    (raw : RawTask) :
    (alookup b c = none →
      add_task_to_dict_from_raw_data today b c raw = none)
    ∧ (∀ l, alookup b c = some l →
      (add_task_to_dict_from_raw_data today b c raw).isSome = true) := by
  constructor
  · intro h
    simp [add_task_to_dict_from_raw_data, h]
  · intro l h
    simp [add_task_to_dict_from_raw_data, h]

/-- C3 (witness): both branches of the amended statement on concrete
boards. -/
theorem C3_add_task_witness :
    add_task_to_dict_from_raw_data 0 [("inbox", [])] "missing"
        ⟨"x", 1, "", ""⟩ = none
    ∧ (add_task_to_dict_from_raw_data 0 [("inbox", [])] "inbox"
        ⟨"x", 1, "", ""⟩).isSome = true :=
  ⟨(C3_add_task_keyerror 0 [("inbox", [])] "missing" ⟨"x", 1, "", ""⟩).1 rfl,
   (C3_add_task_keyerror 0 [("inbox", [])] "inbox" ⟨"x", 1, "", ""⟩).2 [] rfl⟩

/-- C6: sorting a task list by the §4.2 order is idempotent, every adjacent
pair of the result is non-decreasing for the key tuple, and the per-board
`sort_tasks` is idempotent as well. -/
theorem C6_ordering_totality (l : List Task) :
    List.insertionSort taskLE (List.insertionSort taskLE l)
      = List.insertionSort taskLE l
    ∧ List.Chain' taskLE (List.insertionSort taskLE l)
    ∧ ∀ b : Board, sort_tasks (sort_tasks b) = sort_tasks b := by
  refine ⟨?_, ?_, sort_tasks_idem⟩
  · exact (List.sorted_insertionSort taskLE l).insertionSort_eq
  · exact List.Pairwise.chain' (List.sorted_insertionSort taskLE l)

/-- C7: `days_to` yields `None` on the empty string and on any string that
does not parse as a calendar date, and on a parseable date yields the
signed whole-day difference between that date and today — `0` for today,
`1` for tomorrow, negative for past dates. -/
theorem C7_days_to (today : Nat) :
    days_to today "" = none
    ∧ days_to today "not-a-date" = none
    ∧ (∀ s, date_to_timestamp s = none → days_to today s = none)
    ∧ (∀ s y m d, parseDate s = some (y, m, d) →
        days_to today s = some (date_diff (rataDie y m d) today))
    ∧ days_to (rataDie 2026 10 12) "2026-10-12" = some 0
    ∧ days_to (rataDie 2026 10 12) "2026-10-13" = some 1
    ∧ days_to (rataDie 2026 10 12) "2026-10-01" = some (-11) := by
  refine ⟨rfl, rfl, ?_, ?_, by decide, by decide, by decide⟩
  · intro s h
    simp [days_to, h]
  · intro s y m d h
    have hpos := rataDie_pos (y := y) (m := m) (parseDate_day_pos h)
    have hne : rataDie y m d ≠ 0 := by omega
    simp [days_to, date_to_timestamp, h, hne]

/-- C7 (witness): the parse-failure case and the parse-success case at
concrete inputs. -/
theorem C7_days_to_witness :
    days_to 5 "nope" = none
    ∧ days_to (rataDie 2026 10 12) "2026-10-13"
        = some (date_diff (rataDie 2026 10 13) (rataDie 2026 10 12)) :=
  ⟨(C7_days_to 5).2.2.1 "nope" (by decide),
   (C7_days_to (rataDie 2026 10 12)).2.2.2.1 "2026-10-13" 2026 10 13
     (by decide)⟩

/-- C9: `delete_task` leaves the board unchanged when the column is absent
or the index is out of bounds (negative included), and otherwise removes
exactly the task at that index of that column, leaving the other tasks of
the column and every other column untouched. -/
theorem C9_delete_task_defensive (b : Board) (c : String) (i : Int) :
    (alookup b c = none → delete_task b c i = b)
    ∧ (∀ l, alookup b c = some l → ¬(0 ≤ i ∧ i.toNat < l.length) →
        delete_task b c i = b)
    ∧ (∀ l, alookup b c = some l → 0 ≤ i → i.toNat < l.length →
        colOf (delete_task b c i) c
          = l.take i.toNat ++ l.drop (i.toNat + 1)
        ∧ (∀ c', c' ≠ c →
            alookup (delete_task b c i) c' = alookup b c')) := by
  refine ⟨?_, ?_, ?_⟩
  · intro h
    simp [delete_task, h]
  · intro l h hno
    simp [delete_task, h, hno]
  · intro l h h0 hlen
    have hcond : 0 ≤ i ∧ i.toNat < l.length := ⟨h0, hlen⟩
    constructor
    · simp only [delete_task, h, if_pos hcond]
      unfold colOf
      rw [alookup_aupdate_self, h]
      simp [List.eraseIdx_eq_take_drop_succ]
    · intro c' hc'
      simp only [delete_task, h, if_pos hcond]
      exact alookup_aupdate_ne b c c' _ hc'

/-- C9 (witness): in-bounds deletion at index 0 removes exactly the first
task; the theorem applied at a concrete two-task column. -/
theorem C9_delete_task_witness :
    colOf (delete_task [("inbox", [sampleA, sampleB])] "inbox" 0) "inbox"
      = [sampleA, sampleB].take 0 ++ [sampleA, sampleB].drop 1 :=
  ((C9_delete_task_defensive [("inbox", [sampleA, sampleB])] "inbox" 0).2.2
    [sampleA, sampleB] rfl (by decide) (by decide)).1

/-- C10: the persisted representation produced by `save_to_file` holds per
task exactly `description`, `priority` as the integer 1, 2 or 3,
`start_date` and `end_date` (never a derived `days_to_*` field), and the
save first re-sorts every in-memory column by the full §4.2 order. -/
theorem C10_save_normalization (b : Board) :
    (save_to_file b).1 = sort_tasks b
    ∧ (∀ c, (colOf (save_to_file b).1 c).Sorted taskLE)
    ∧ (save_to_file b).2
        = (sort_tasks b).map (fun p => (p.1, p.2.map fun t =>
            CleanedTask.mk t.description t.priority.value t.start_date
              t.end_date))
    ∧ (∀ p ∈ (save_to_file b).2, ∀ r ∈ p.2,
        r.priority = 1 ∨ r.priority = 2 ∨ r.priority = 3) := by
  refine ⟨rfl, fun c => sorted_colOf_sort_tasks b c, rfl, ?_⟩
  intro p hp r hr
  simp only [save_to_file, get_cleaned_tasks_dict, List.mem_map] at hp
  obtain ⟨q, _, rfl⟩ := hp
  simp only [List.mem_map] at hr
  obtain ⟨t, _, rfl⟩ := hr
  cases t.priority <;> simp [TaskPriority.value]

/-- C8 (counterexample): deleting the topic holding the current maximum id
frees that id for immediate reuse — after `create` (id 1), `create` (id 2),
`delete 2`, the next `create` assigns 2 again, a previously deleted id. -/
theorem C8_counterexample :
    (create_new_topic [] []).1 = 1
    ∧ (create_new_topic [] (create_new_topic [] []).2).1 = 2
    ∧ (create_new_topic []
        (delete_topic (create_new_topic [] (create_new_topic [] []).2).2 2)).1
      = 2 := by
  exact ⟨rfl, rfl, rfl⟩

/-- C8 (amended): after any sequence of create and delete operations from
an empty collection all topic ids are unique, and each create assigns
`max(existing ids) + 1` (so `1` on an empty collection); ids below the
current maximum are never reused — the §8 scenario create, create,
delete 1, create yields ids 1, 2, 3 — but deleting the maximum id lets the
next create reuse it. -/
theorem C8_topic_id_assignment :
    (∀ ops : List TopicOp, ((runTopicOps [] ops).map fun r => r.id).Nodup)
    ∧ (∀ cols data, (create_new_topic cols data).1
        = ((data.map fun r => r.id).foldr max 0) + 1)
    ∧ (∀ cols, (create_new_topic cols []).1 = 1)
    ∧ (create_new_topic [] []).1 = 1
    ∧ (create_new_topic [] (create_new_topic [] []).2).1 = 2
    ∧ (create_new_topic []
        (delete_topic (create_new_topic [] (create_new_topic [] []).2).2 1)).1
      = 3 := by
  refine ⟨?_, ?_, ?_, rfl, rfl, rfl⟩
  · intro ops
    exact runTopicOps_nodup ops [] (by simp)
  · intro cols data
    rfl
  · intro cols
    rfl

end Tuido
namespace Tuido

/-- C4: on a change event for a topics field of the selected topic, an
identifier found in the suppress-set is removed from it and the dirty-set
is untouched (consumed exactly once); otherwise the new value (with the
blank-selection sentinel read as the empty string) is compared with the
stored value of the field (missing field read as the empty string), the
field is removed from the dirty-set on equality and added on inequality,
and the table is disabled exactly when the resulting dirty-set is
non-empty. -/
theorem C4_reconciliation_transition (store : List TopicRec) (tid : Nat)
    (st : TrackerState) (input_id : String) (v : EventValue)
    (fields : List (String × String))
    (hst : lookupTopic store tid = some fields)
    (hpre : strStarts input_id "topics_" = true) :
    (input_id ∈ st.programmatically_changed_inputs →
      on_input_changed store tid st input_id v
        = some { st with programmatically_changed_inputs :=
            st.programmatically_changed_inputs.erase input_id })
    ∧ (input_id ∉ st.programmatically_changed_inputs →
      ∃ st', on_input_changed store tid st input_id v = some st'
        ∧ st'.programmatically_changed_inputs
            = st.programmatically_changed_inputs
        ∧ st'.user_changed_inputs =
            (if v.getD ""
                = (alookup fields (strReplace (strReplace input_id
                    "topics_" "") "_input" "")).getD ""
             then st.user_changed_inputs.erase input_id
             else insert input_id st.user_changed_inputs)
        ∧ (st'.table_disabled = true ↔
            st'.user_changed_inputs.Nonempty)) := by
  constructor
  · intro hmem
    simp [on_input_changed, hmem]
  · intro hmem
    have hv : (match v with | none => "" | some s => s) = v.getD "" := by
      cases v <;> rfl
    refine ⟨activate_deactivate_topics_table { st with user_changed_inputs :=
        (if (v.getD "" = (alookup fields (strReplace (strReplace input_id
            "topics_" "") "_input" "")).getD "")
         then st.user_changed_inputs.erase input_id
         else insert input_id st.user_changed_inputs) }, ?_, rfl, rfl, ?_⟩
    · simp only [on_input_changed, if_neg hmem,
        compare_input_value_to_original, hpre, hst, hv]
      simp
    · simp only [activate_deactivate_topics_table]
      constructor
      · intro h
        exact Finset.card_pos.mp (of_decide_eq_true h)
      · intro h
        exact decide_eq_true (Finset.card_pos.mpr h)

end Tuido

namespace Tuido

/-- C4 (witness): a user edit whose value differs from the stored value,
on a concrete one-topic store with an empty suppress-set. -/
theorem C4_reconciliation_witness :
    ∃ st', on_input_changed [⟨1, [("name", "orig")]⟩] 1 ⟨∅, ∅, false⟩
        "topics_name_input" (some "x") = some st'
      ∧ st'.programmatically_changed_inputs = (∅ : Finset String)
      ∧ st'.user_changed_inputs =
          (if ((some "x" : Option String).getD ""
              = (alookup [("name", "orig")] (strReplace (strReplace
                  "topics_name_input" "topics_" "") "_input" "")).getD "")
           then (∅ : Finset String).erase "topics_name_input"
           else insert "topics_name_input" (∅ : Finset String))
      ∧ (st'.table_disabled = true ↔ st'.user_changed_inputs.Nonempty) :=
  (C4_reconciliation_transition [⟨1, [("name", "orig")]⟩] 1 ⟨∅, ∅, false⟩
    "topics_name_input" (some "x") [("name", "orig")] rfl rfl).2
    (by decide)

end Tuido
namespace Tuido

theorem mem_colOf_sort_tasks (b : Board) (c : String) (t : Task) :
    t ∈ colOf (sort_tasks b) c ↔ t ∈ colOf b c := by
  rw [colOf_sort_tasks]
  exact List.mem_insertionSort taskLE

/-- The state of the board after the mutating steps of
`TasksController.move_task` (delete from source, append to target, sort,
save): count preserved, source and target sorted, moved task present in
the target column. -/
theorem move_core (b : Board) (sel tgt : String) (i : Nat) (l : List Task)
    (t : Task) (b1 b2 b3 : Board)
    (hl : alookup b sel = some l) (ht : l[i]? = some t)
    (hb1 : b1 = delete_task b sel (i : Int))
    (hb2 : b2 = if (alookup b1 tgt).isSome then b1
                else b1 ++ [(tgt, ([] : List Task))])
    (hb3 : b3 = aupdate b2 tgt fun l0 =>
                l0 ++ [{ t with column_name := tgt }]) :
    totalCount (sort_tasks (sort_tasks b3)) = totalCount b
    ∧ (colOf (sort_tasks (sort_tasks b3)) sel).Sorted taskLE
    ∧ (colOf (sort_tasks (sort_tasks b3)) tgt).Sorted taskLE
    ∧ { t with column_name := tgt } ∈ colOf (sort_tasks (sort_tasks b3)) tgt := by
  have hlen : i < l.length := by
    rcases List.getElem?_eq_some.mp ht with ⟨h, _⟩
    exact h
  have hcond : 0 ≤ (i : Int) ∧ (i : Int).toNat < l.length := by
    constructor
    · exact Int.ofNat_nonneg i
    · simpa using hlen
  have hb1' : b1 = aupdate b sel fun l0 => l0.eraseIdx (i : Int).toNat := by
    rw [hb1]
    simp only [delete_task, hl, if_pos hcond]
  have hi : (i : Int).toNat < l.length := by simpa using hlen
  have hcount1 : totalCount b1 + 1 = totalCount b := by
    have h2 : totalCount b1 + l.length
        = totalCount b + (l.eraseIdx (i : Int).toNat).length := by
      rw [hb1']
      exact totalCount_aupdate b sel _ l hl
    have hlen' : (l.eraseIdx (i : Int).toNat).length = l.length - 1 :=
      List.length_eraseIdx_of_lt hi
    omega
  -- target column content of b2 and count of b2
  have hb2cases : (∃ l2, alookup b2 tgt = some l2
      ∧ totalCount b2 = totalCount b1) := by
    rcases hopt : alookup b1 tgt with _ | l2
    · refine ⟨[], ?_, ?_⟩
      · rw [hb2, hopt]
        simp only [Option.isSome_none, Bool.false_eq_true, if_false]
        rw [alookup_append_none _ _ _ hopt]
        simp [alookup]
      · rw [hb2, hopt]
        simp only [Option.isSome_none, Bool.false_eq_true, if_false]
        rw [totalCount_append]
        simp [totalCount]
    · refine ⟨l2, ?_, ?_⟩
      · rw [hb2, hopt]
        simp [hopt]
      · rw [hb2, hopt]
        simp
  obtain ⟨l2, hl2, hcount2⟩ := hb2cases
  have hcount3 : totalCount b3 = totalCount b2 + 1 := by
    have h : totalCount b3 + l2.length
        = totalCount b2 + (l2 ++ [{ t with column_name := tgt }]).length := by
      rw [hb3]
      exact totalCount_aupdate b2 tgt _ l2 hl2
    simp at h
    omega
  have hmem3 : { t with column_name := tgt } ∈ colOf b3 tgt := by
    rw [hb3]
    unfold colOf
    rw [alookup_aupdate_self, hl2]
    simp
  refine ⟨?_, ?_, ?_, ?_⟩
  · rw [totalCount_sort_tasks, totalCount_sort_tasks]
    omega
  · exact sorted_colOf_sort_tasks _ _
  · exact sorted_colOf_sort_tasks _ _
  · rw [mem_colOf_sort_tasks, mem_colOf_sort_tasks]
    exact hmem3

end Tuido
namespace Tuido

/-- Target column index chosen by `move_task` for a direction: one step
left (clamped at column 0) or one step right (clamped at the last
column). -/
def moveTargetIndex (cols : List String) (sel : String)
    (dir : TaskMoveDirection) : Nat :=
  match dir with
  | .LEFT => cols.indexOf sel - 1
  | .RIGHT => min (cols.indexOf sel + 1) (cols.length - 1)

/-- C5: moving the task at a valid selected index preserves the total task
count, reassigns the moved task's `column_name` to the target column (the
reassigned task is in the target column afterwards), and leaves both the
source and the target columns sorted by the §4.2 order; the move is a
complete no-op when source and target coincide (selection at an edge) or
the source column is empty. -/
theorem C5_move_invariant (cols : List String) (b : Board) (sel : String)
    (i : Nat) (dir : TaskMoveDirection) (hmem : sel ∈ cols) :
    (cols.indexOf sel = moveTargetIndex cols sel dir →
      move_task cols b sel i dir = some b)
    ∧ (alookup b sel = some [] → move_task cols b sel i dir = some b)
    ∧ (∀ l t, alookup b sel = some l → l[i]? = some t →
        cols.indexOf sel ≠ moveTargetIndex cols sel dir →
        ∃ b', move_task cols b sel i dir = some b'
          ∧ totalCount b' = totalCount b
          ∧ (colOf b' sel).Sorted taskLE
          ∧ List.Sorted taskLE
              (colOf b' (cols.getD (moveTargetIndex cols sel dir) ""))
          ∧ { t with column_name :=
                cols.getD (moveTargetIndex cols sel dir) "" }
              ∈ colOf b' (cols.getD (moveTargetIndex cols sel dir) "")) := by
  refine ⟨?_, ?_, ?_⟩
  · intro heq
    unfold move_task
    rw [if_pos hmem]
    cases dir <;> simp only [moveTargetIndex] at heq <;> dsimp only [] <;>
      rw [if_pos heq]
  · intro hempty
    unfold move_task
    rw [if_pos hmem]
    by_cases heq : cols.indexOf sel = moveTargetIndex cols sel dir
    · cases dir <;> simp only [moveTargetIndex] at heq <;> dsimp only [] <;>
        rw [if_pos heq]
    · cases dir <;> simp only [moveTargetIndex] at heq <;> dsimp only [] <;>
        rw [if_neg heq] <;> simp [hempty]
  · intro l t hl ht hne
    have hlen0 : ¬ (l.length = 0) := by
      rcases List.getElem?_eq_some.mp ht with ⟨h, _⟩
      omega
    obtain ⟨hc, hs1, hs2, hm⟩ :=
      move_core b sel (cols.getD (moveTargetIndex cols sel dir) "") i l t
        _ _ _ hl ht rfl rfl rfl
    refine ⟨_, ?_, hc, hs1, hs2, hm⟩
    unfold move_task
    rw [if_pos hmem]
    cases dir <;>
      simp only [moveTargetIndex] at hne ⊢ <;>
      rw [if_neg hne] <;> simp only [hl] <;> rw [if_neg hlen0] <;>
      simp only [ht, save_to_file]

end Tuido

namespace Tuido

/-- The target column name of the witness move below. -/
def witnessTarget : String :=
  ["inbox", "doing"].getD
    (moveTargetIndex ["inbox", "doing"] "inbox" .RIGHT) ""

/-- C5 (witness): the move invariant applied to a concrete two-column
board with one task per column, moving the inbox task right. -/
theorem C5_move_witness :
    ∃ b', move_task ["inbox", "doing"]
        [("inbox", [sampleA]), ("doing", [sampleC])] "inbox" 0 .RIGHT
        = some b'
      ∧ totalCount b'
          = totalCount [("inbox", [sampleA]), ("doing", [sampleC])]
      ∧ List.Sorted taskLE (colOf b' "inbox")
      ∧ List.Sorted taskLE (colOf b' witnessTarget)
      ∧ { sampleA with column_name := witnessTarget }
          ∈ colOf b' witnessTarget :=
  (C5_move_invariant ["inbox", "doing"]
    [("inbox", [sampleA]), ("doing", [sampleC])] "inbox" 0 .RIGHT
    (by decide)).2.2 [sampleA] sampleA rfl rfl (by decide)

end Tuido

namespace Tuido

/-- C10 (witness): the persisted-priority property applied to the record
that saving a one-task board produces. -/
theorem C10_save_witness :
    (CleanedTask.mk "a" 1 "" "").priority = 1
    ∨ (CleanedTask.mk "a" 1 "" "").priority = 2
    ∨ (CleanedTask.mk "a" 1 "" "").priority = 3 :=
  (C10_save_normalization [("inbox", [sampleA])]).2.2.2
    ("inbox", [CleanedTask.mk "a" 1 "" ""]) (by decide)
    (CleanedTask.mk "a" 1 "" "") (by decide)

end Tuido
